import Mathlib

/-!
Verification of the sesmon SES monitoring daemon core against its
natural-language specification.  Go source files are shallowly embedded:
Go pointers to values become `Option`, Go `int` becomes `Int`, Go maps
become association lists with insert-overwrite semantics, and Go nil
pointer dereference (a runtime panic) is made explicit by an `Option`
layer on the affected functions.
-/

namespace Sesmon

/-! ## Association-list model of Go maps

A Go `map[string]V` is modelled as a `List (String × V)` built only by
`alistInsert`, which replaces the value of an existing key in place and
otherwise appends.  `alistLookup` finds the first binding.
-/

def alistLookup {β : Type} (l : List (String × β)) (k : String) : Option β :=
  match l with
  | [] => none
  | p :: rest => if p.1 = k then some p.2 else alistLookup rest k

def alistInsert {β : Type} (l : List (String × β)) (k : String) (v : β) :
    List (String × β) :=
  match l with
  | [] => [(k, v)]
  | p :: rest => if p.1 = k then (k, v) :: rest else p :: alistInsert rest k v

/-! ## Data model (src/cmd/sesmon/structs.go)

The SES JSON structures as decoded by Go `encoding/json` into the
pointer-laden structs of `structs.go`; each Go pointer field is an
`Option`.  `Result.typ` embeds the Go field `Type` (a reserved word in
Lean).
-/

structure SESElementType where
  i : Option Int
  meaning : Option String
deriving Repr, DecidableEq

structure CodeMeaning where
  i : Option Int
  meaning : Option String
deriving Repr, DecidableEq

structure SESVoltage where
  rawValue : Option Int
  valueInVolts : Option String
deriving Repr, DecidableEq

structure SESCurrent where
  rawValue : Option Int
  valueInAmps : Option String
deriving Repr, DecidableEq

structure StatusDescriptor where
  status : Option CodeMeaning
  prdFail : Option Int
  disabled : Option Int
  swap : Option Int
  temperature : Option CodeMeaning
  voltage : Option SESVoltage
  current : Option SESCurrent
deriving Repr, DecidableEq

structure SESElement where
  elementType : Option SESElementType
  elementNumber : Option Int
  statusDescriptor : Option StatusDescriptor
deriving Repr, DecidableEq

/-- `Result` from structs.go; all optional fields are Go pointers. -/
structure Result where
  typ : Int
  typeNum : Int
  typeDesc : Option String
  status : Option Int
  statusDesc : Option String
  prdFail : Option Int
  disabled : Option Int
  swap : Option Int
  temperature : Option String
  voltage : Option String
  amperage : Option String
deriving Repr, DecidableEq

/-- The Go zero value of `Result` (fresh `r := Result{}` in parseSES). -/
def zeroResult : Result :=
  { typ := 0, typeNum := 0, typeDesc := none, status := none, statusDesc := none,
    prdFail := none, disabled := none, swap := none,
    temperature := none, voltage := none, amperage := none }

/-- `Change` from structs.go. -/
structure Change where
  id : String
  typ : Int
  typeNum : Int
  typeDesc : Option String
  before : Option Result
  after : Option Result
deriving Repr, DecidableEq

/-! ## Go string helpers

`strings.TrimSpace` and `strings.ToLower`, implemented on the character
list so that they evaluate on concrete inputs (`ToLower` is simple
case folding; the strings this program normalises are ASCII). -/

def goTrimLeft : List Char → List Char
  | [] => []
  | c :: cs => if c.isWhitespace then goTrimLeft cs else c :: cs

/-- Go `strings.TrimSpace`: drop leading and trailing whitespace. -/
def goTrimSpace (s : String) : String :=
  ⟨(goTrimLeft ((goTrimLeft s.data).reverse)).reverse⟩

/-- Go `strings.ToLower` (simple case folding). -/
def goToLower (s : String) : String :=
  ⟨s.data.map Char.toLower⟩

/-! ## Helpers (src/cmd/sesmon/util.go) -/

/-- `fne` returns the first non-empty string of two strings. -/
def fne (a b : String) : String :=
  if a ≠ "" then a else b

/-- `fnz` returns the first non-zero integer of two integers. -/
def fnz (a b : Int) : Int :=
  if a ≠ 0 then a else b

/-- `ptrIntEqual` compares two integer pointers (nil safe). -/
def ptrIntEqual (a b : Option Int) : Bool :=
  match a, b with
  | none, none => true
  | none, some _ => false
  | some _, none => false
  | some x, some y => x == y

/-- Go `strings.EqualFold`, modelled as ASCII-style case folding.  The
status strings compared by the program come from a C utility and are
ASCII (per the repository's own design notes), where simple Unicode
case folding and `toLower` agree. -/
def strEqualFold (a b : String) : Bool :=
  goToLower a == goToLower b

/-- `ptrStrEqualFold` compares case insensitive two string pointers (nil safe). -/
def ptrStrEqualFold (a b : Option String) : Bool :=
  match a, b with
  | none, none => true
  | none, some _ => false
  | some _, none => false
  | some x, some y => strEqualFold x y

/-- `fmtPtrStr` dereferences a string pointer to a string or returns `e` if nil. -/
def fmtPtrStr (p : Option String) (e : String) : String :=
  match p with
  | none => e
  | some s => s

/-! ## SES parser (src/unnamed/part_003, parseSES)

`parseSES` unmarshals bytes into `Root` and then folds over the element
list.  The byte-level `json.Unmarshal` step belongs to the Go standard
library; the embedding starts from the decoded element list.  Three
outcomes exist per element: it is skipped (`continue`), it is added to
the map, or the program panics on a nil pointer dereference
(`*el.StatusDescriptor.Temperature.Meaning` and the voltage/current
analogues are dereferenced without a nil check).  A panic of the whole
parse is modelled as `none`.
-/

inductive ElemStep where
  | skip : ElemStep
  | crash : ElemStep
  | keep : Result → ElemStep
deriving Repr, DecidableEq

/-- The status-descriptor stage of the parseSES loop body (lines 39-66 of
the parser source).  `crash` marks the nil dereference of
`Temperature.Meaning`, `Voltage.ValueInVolts` or `Current.ValueInAmps`. -/
def parseStatusStage (el : SESElement) (r : Result) : ElemStep :=
  match el.statusDescriptor with
  | none => .keep r
  | some sd =>
    let r1 :=
      match sd.status with
      | none => r
      | some st =>
        let ra := match st.i with
          | some i => { r with status := some i }
          | none => r
        match st.meaning with
        | some m => { ra with statusDesc := some (goTrimSpace m) }
        | none => ra
    let r2 := match sd.prdFail with
      | some v => { r1 with prdFail := some v }
      | none => r1
    let r3 := match sd.disabled with
      | some v => { r2 with disabled := some v }
      | none => r2
    let r4 := match sd.swap with
      | some v => { r3 with swap := some v }
      | none => r3
    match sd.temperature with
    | some t =>
      match t.meaning with
      | none => .crash
      | some tm =>
        let r5 := { r4 with temperature := some (goTrimSpace tm) }
        match sd.voltage with
        | some vo =>
          match vo.valueInVolts with
          | none => .crash
          | some vv =>
            let r6 := { r5 with voltage := some (goTrimSpace vv) }
            match sd.current with
            | some cu =>
              match cu.valueInAmps with
              | none => .crash
              | some ca => .keep { r6 with amperage := some (goTrimSpace ca) }
            | none => .keep r6
        | none =>
          match sd.current with
          | some cu =>
            match cu.valueInAmps with
            | none => .crash
            | some ca => .keep { r5 with amperage := some (goTrimSpace ca) }
          | none => .keep r5
    | none =>
      match sd.voltage with
      | some vo =>
        match vo.valueInVolts with
        | none => .crash
        | some vv =>
          let r5 := { r4 with voltage := some (goTrimSpace vv) }
          match sd.current with
          | some cu =>
            match cu.valueInAmps with
            | none => .crash
            | some ca => .keep { r5 with amperage := some (goTrimSpace ca) }
          | none => .keep r5
      | none =>
        match sd.current with
        | some cu =>
          match cu.valueInAmps with
          | none => .crash
          | some ca => .keep { r4 with amperage := some (goTrimSpace ca) }
        | none => .keep r4

/-- The element-number stage of the parseSES loop body: a missing
`element_number` skips the element (`continue // required for ID`). -/
def parseNumberStage (el : SESElement) (r : Result) : ElemStep :=
  match el.elementNumber with
  | none => .skip
  | some n => parseStatusStage el { r with typeNum := n }

/-- One iteration of the parseSES element loop.  Note the Go control
flow: when `el.ElementType` is nil the whole `if` block is skipped and
processing falls through with `r.Type` left at its zero value; only a
present `element_type` with missing `i` triggers the skip. -/
def parseElement (el : SESElement) : ElemStep :=
  match el.elementType with
  | some et =>
    match et.i with
    | none => .skip
    | some i =>
      let r1 : Result := { zeroResult with typ := i }
      let r2 := match et.meaning with
        | some m => { r1 with typeDesc := some (goTrimSpace m) }
        | none => r1
      parseNumberStage el r2
  | none => parseNumberStage el zeroResult

/-- `keyFor` derives the map key `Type#TypeNum` from a `Result`. -/
def keyFor (r : Result) : String :=
  toString r.typ ++ "#" ++ toString r.typeNum

/-- The parseSES element loop: fold the elements into the Go map,
propagating a panic as `none`. -/
def parseSESElemsAux (acc : List (String × Result)) :
    List SESElement → Option (List (String × Result))
  | [] => some acc
  | el :: rest =>
    match parseElement el with
    | .crash => none
    | .skip => parseSESElemsAux acc rest
    | .keep r => parseSESElemsAux (alistInsert acc (keyFor r) r) rest

/-- `parseSES` restricted to well-formed top-level JSON: the decoded
element list is processed; `none` models a runtime panic. -/
def parseSESElems (els : List SESElement) : Option (List (String × Result)) :=
  parseSESElemsAux [] els

/-! ## Equality and diff (src/unnamed/part_003) -/

/-- `rowsEqual` returns if two `Result` should be considered as equal. -/
def rowsEqual (a b : Result) : Bool :=
  ptrIntEqual a.status b.status &&
    ptrStrEqualFold a.statusDesc b.statusDesc &&
    ptrIntEqual a.prdFail b.prdFail &&
    ptrIntEqual a.disabled b.disabled &&
    ptrIntEqual a.swap b.swap

/-- The loop body of `rowsDiff` for a single key of the union. -/
def rowsDiffAt (prev curr : List (String × Result)) (k : String) : Option Change :=
  let pOpt := alistLookup prev k
  let cOpt := alistLookup curr k
  let p := pOpt.getD zeroResult
  let c := cOpt.getD zeroResult
  if pOpt.isNone || cOpt.isNone || !(rowsEqual p c) then
    some { id := k, typ := fnz c.typ p.typ, typeNum := fnz c.typeNum p.typeNum,
           typeDesc :=
             if c.typeDesc.isSome || p.typeDesc.isSome then
               some (fne (fmtPtrStr c.typeDesc "") (fmtPtrStr p.typeDesc ""))
             else none,
           before := pOpt, after := cOpt }
  else none

/-- `rowsDiff` compares two result maps and returns the change set.  The
Go code iterates the `seen` union key set of both maps; iteration order
of a Go map is unspecified, so the union keys are taken in first-seen
order, which the claims never depend on. -/
def rowsDiff (prev curr : List (String × Result)) : List Change :=
  let seen := (prev.map Prod.fst ++ curr.map Prod.fst).dedup
  seen.filterMap (rowsDiffAt prev curr)

/-! ## Alert dispatch and de-duplication (src/cmd/sesmon/monitor.go)

After a non-empty diff, `poll` computes `hash := hex(sha256(msg))` and
dispatches through `handleAlert` unless `lastAlertHash` is non-empty and
equal to the new hash; `handleAlert` logs, starts the notifier task,
writes the change report and sets `lastAlertHash = hash`.  The concrete
hash (hex-encoded SHA-256, a 64-character string, never empty) is kept
abstract as a function parameter `hashOf`.
-/

structure AlertDecision where
  dispatched : Bool
  notifierMsg : Option String
  newHash : String
deriving Repr, DecidableEq

/-- The alert decision of one poll with a non-empty change set (monitor
lines 286-296 plus the `lastAlertHash` update of `handleAlert`). -/
def alertStep (hashOf : String → String) (lastAlertHash : String) (msg : String)
    (notifierPresent : Bool) : AlertDecision :=
  let hash := hashOf msg
  if lastAlertHash ≠ "" ∧ lastAlertHash = hash then
    { dispatched := false, notifierMsg := none, newHash := lastAlertHash }
  else
    { dispatched := true,
      notifierMsg := if notifierPresent then some msg else none,
      newHash := hash }

/-- The messages actually dispatched over a run of polls, each with a
non-empty change set formatted to the given message, threading
`lastAlertHash` exactly as the polling task does (the hash update is
synchronous, before the next poll). -/
def alertMessages (hashOf : String → String) : String → List String → List String
  | _, [] => []
  | last, m :: ms =>
    let d := alertStep hashOf last m true
    if d.dispatched then m :: alertMessages hashOf d.newHash ms
    else alertMessages hashOf d.newHash ms

/-- No two adjacent entries of the list are equal. -/
def adjacentDistinct : List String → Prop
  | [] => True
  | [_] => True
  | a :: b :: rest => a ≠ b ∧ adjacentDistinct (b :: rest)

/-! ## Poll failure accounting (src/cmd/sesmon/monitor.go, pollFailure)

The monitor state and the `pollFailure` routine.  Channel state is
explicit: `stopClosed` is whether the monitor's stop channel has been
closed; the outer context's cancellation is observed at the entry
`select` and again at the back-off `select`, modelled as separate
boolean observations (the stop channel can also be closed concurrently
by another task before the back-off wait, hence its own second
observation). -/

structure MonitorBackoffConfig where
  pollBackoffAfter : Int
  pollBackoffNotify : Bool
  pollBackoffStopMonitor : Bool
deriving Repr, DecidableEq

structure MonitorState where
  pollFailures : Int
  lastAlertHash : String
  previousResults : Option (List (String × Result))
  stopClosed : Bool
deriving Repr, DecidableEq

inductive PollFailureEffect where
  | logFailure : PollFailureEffect
  | logBackoffMsg : PollFailureEffect
  | notifyDispatch : PollFailureEffect
  | stopCalled : PollFailureEffect
  | backoffWait : PollFailureEffect
deriving Repr, DecidableEq

/-- `pollFailure` (monitor lines 399-450): early return on cancelled
context or closed stop channel; otherwise count the failure, and at the
threshold log, optionally notify, and either stop or wait out the
back-off (resetting the counter only if the wait completes). -/
def pollFailureGo (cfg : MonitorBackoffConfig) (notifierPresent : Bool)
    (ctxDoneAtEntry : Bool) (ctxDoneAtWait stopClosedAtWait : Bool)
    (st : MonitorState) : MonitorState × List PollFailureEffect :=
  if ctxDoneAtEntry || st.stopClosed then (st, [])
  else
    let st1 := { st with pollFailures := st.pollFailures + 1 }
    if st1.pollFailures < cfg.pollBackoffAfter then
      (st1, [.logFailure])
    else
      let fx1 : List PollFailureEffect :=
        if notifierPresent && cfg.pollBackoffNotify then
          [.logBackoffMsg, .notifyDispatch]
        else [.logBackoffMsg]
      if cfg.pollBackoffStopMonitor then
        ({ st1 with stopClosed := true }, fx1 ++ [.stopCalled])
      else if ctxDoneAtWait || stopClosedAtWait then
        (st1, fx1)
      else
        ({ st1 with pollFailures := 0 }, fx1 ++ [.backoffWait])

/-! ## Retry utility (src/cmd/sesmon/util.go, withRetries)

`ctxErrAt t` is the context's cancellation status at the `t`-th
observation point (`ctx.Err()` at each loop top, `ctx.Done()` in the
inter-attempt `select`); `fn i` is the outcome of the `i`-th invocation
of the operation (`none` = success, `some e` = the Go error).  The
`onAttemptErr` callback only logs and is not part of the returned
value. -/

inductive RetryError (ε : Type) where
  | invalidArg : RetryError ε
  | ctxCancelled : RetryError ε
  | opError : ε → RetryError ε
deriving Repr, DecidableEq

/-- The `for range attempts` loop of `withRetries`: `remaining`
iterations left, `attempt` invocations made so far, `t` the next context
observation index, `last` the latest operation error. -/
def retryLoopGo {ε : Type} (ctxErrAt : Nat → Bool) (fn : Nat → Option ε) (attempts : Nat) :
    Nat → Nat → Nat → Option ε → Nat × Option (RetryError ε)
  | 0, attempt, _, last => (attempt, last.map RetryError.opError)
  | remaining + 1, attempt, t, _last =>
    if ctxErrAt t then (attempt, some .ctxCancelled)
    else
      match fn attempt with
      | none => (attempt + 1, none)
      | some e =>
        if attempt + 1 < attempts then
          if ctxErrAt (t + 1) then (attempt + 1, some .ctxCancelled)
          else retryLoopGo ctxErrAt fn attempts remaining (attempt + 1) (t + 2) (some e)
        else retryLoopGo ctxErrAt fn attempts remaining (attempt + 1) (t + 1) (some e)

/-- `withRetries`; a nil `fn` is `none`, and a Go `attempts` of any sign
is an `Int` whose non-positive values run the loop zero times. -/
def withRetriesGo {ε : Type} (ctxErrAt : Nat → Bool) (fn : Option (Nat → Option ε))
    (attempts : Int) : Nat × Option (RetryError ε) :=
  match fn with
  | none => (0, some .invalidArg)
  | some f => retryLoopGo ctxErrAt f attempts.toNat attempts.toNat 0 0 none

/-! ## Change-report writer (src/cmd/sesmon/write.go)

The filesystem is a map from path to contents.  `afero.WriteFile` opens
with `O_WRONLY|O_CREATE|O_TRUNC`: it creates the file or truncates an
existing one, so a second write to the same path replaces the contents
and reports no error.  `MkdirAll` on the in-memory model always
succeeds, and `json.MarshalIndent` (Go standard library) is the
`marshal` parameter. -/

abbrev FsModel := List (String × String)

def writeFileFs (fs : FsModel) (path contents : String) : FsModel :=
  alistInsert fs path contents

structure ChangeReportModel where
  devicePath : String
  detectedAt : String
  changes : List Change
deriving Repr, DecidableEq

/-- The `change-YYYYMMDD-HHMMSS.json` filename derived from the wall
clock formatted with Go layout `20060102-150405` (second precision),
passed in as the already-formatted `timestamp`. -/
def changeReportFilename (timestamp : String) : String :=
  "change-" ++ timestamp ++ ".json"

/-- `writeChangeReport` (write.go lines 48-68) on the filesystem model:
ensure the folder, join the timestamped filename, marshal, write. -/
def writeChangeReportGo (marshal : ChangeReportModel → String) (outputDir : String)
    (timestamp : String) (fs : FsModel) (report : ChangeReportModel) :
    FsModel × Option String :=
  let reportPath := outputDir ++ "/" ++ changeReportFilename timestamp
  (writeFileFs fs reportPath (marshal report), none)

/-! ## Device resolver (src/cmd/sesmon/lookup.go)

A glob match `/sys/class/scsi_generic/sg*/device` is one `SgEntry`: its
`sg` is the `sgN` path component (`filepath.Base(filepath.Dir(d))`) and
`sasRead` the outcome of reading `<d>/sas_address` (`none` = read
error).  The index maps the normalised SAS address to `"/dev/" ++ sg`,
and addresses seen more than once are deleted at the end. -/

structure SgEntry where
  sg : String
  sasRead : Option String
deriving Repr, DecidableEq

/-- Read, trim, lowercase, and discard empties (lookup.go lines 36-43). -/
def normalizeSas (read : Option String) : Option String :=
  match read with
  | none => none
  | some s =>
    let t := goToLower (goTrimSpace s)
    if t = "" then none else some t

/-- The successful observations: (normalised address, sgN component). -/
def sasObservations (entries : List SgEntry) : List (String × String) :=
  entries.filterMap (fun e => (normalizeSas e.sasRead).map (fun sas => (sas, e.sg)))

/-- The enumeration loop of `NewDeviceFinder` (lines 35-49), building
the `devices` map and the `ignored` set. -/
def finderLoop : List SgEntry → List (String × String) → List String →
    List (String × String) × List String
  | [], devices, ignored => (devices, ignored)
  | e :: rest, devices, ignored =>
    match normalizeSas e.sasRead with
    | none => finderLoop rest devices ignored
    | some sas =>
      let sg := "/dev/" ++ e.sg
      let ignored1 :=
        if (alistLookup devices sas).isSome then
          (if sas ∈ ignored then ignored else sas :: ignored)
        else ignored
      finderLoop rest (alistInsert devices sas sg) ignored1

/-- `NewDeviceFinder`: run the loop, then delete every ignored address
from the index (lines 51-55). -/
def newDeviceFinder (entries : List SgEntry) : List (String × String) :=
  let st := finderLoop entries [] []
  st.1.filter (fun p => !(st.2.contains p.1))

/-- `FindDevice` resolves a SAS address to a device path. -/
def findDevice (devices : List (String × String)) (addr : String) : String × Bool :=
  match alistLookup devices addr with
  | some v => (v, true)
  | none => ("", false)

/-! ## Supervisor construction loop (src/unnamed/part_004, NewProgram)

The per-entry loop of `NewProgram` (lines 1266-1300).  Only the fields
the loop itself consults are modelled on the YAML entry; identity
resolution (`lookupDevice`, which rewrites `device`/`address` in place)
and monitor construction (`setupDeviceMonitor`) are the loop's
collaborators, passed as functions.  YAML absence of `enabled` decodes
to the Go zero value `false`. -/

structure MonitorConfigYAML where
  outputDir : Option String
deriving Repr, DecidableEq

structure DeviceYAMLModel where
  device : String
  address : String
  enabled : Bool
  monitorConfig : Option MonitorConfigYAML
deriving Repr, DecidableEq

inductive ProgramError (ε : Type) where
  | missingDeviceAndAddress : ProgramError ε
  | duplicateOutputDir : String → ProgramError ε
  | lookupFailed : ε → ProgramError ε
  | duplicateMonitor : String → String → ProgramError ε
  | setupFailed : ε → ProgramError ε
deriving Repr, DecidableEq

/-- The `for i, deviceCfg := range config.Devices` loop of `NewProgram`:
`i` the entry index (it appears in every error), `seenDirs` the
`seenOutputDirs` set, `monitors` the `p.monitors` map. -/
def programLoop {ε μ : Type} (lookupF : DeviceYAMLModel → Except ε DeviceYAMLModel)
    (setupF : DeviceYAMLModel → Except ε μ) :
    Nat → List DeviceYAMLModel → List String → List (String × μ) →
    Except (Nat × ProgramError ε) (List (String × μ))
  | _, [], _, monitors => .ok monitors
  | i, d :: rest, seenDirs, monitors =>
    if !d.enabled then programLoop lookupF setupF (i + 1) rest seenDirs monitors
    else if d.device = "" ∧ d.address = "" then .error (i, .missingDeviceAndAddress)
    else
      let dirOpt := match d.monitorConfig with
        | some mc => mc.outputDir
        | none => none
      let dirStep : Except (Nat × ProgramError ε) (List String) :=
        match dirOpt with
        | some dir =>
          if seenDirs.contains dir then .error (i, .duplicateOutputDir dir)
          else .ok (dir :: seenDirs)
        | none => .ok seenDirs
      match dirStep with
      | .error err => .error err
      | .ok seenDirs1 =>
        match lookupF d with
        | .error e => .error (i, .lookupFailed e)
        | .ok d1 =>
          if (alistLookup monitors d1.device).isSome then
            .error (i, .duplicateMonitor d1.device d1.address)
          else
            match setupF d1 with
            | .error e => .error (i, .setupFailed e)
            | .ok m =>
              programLoop lookupF setupF (i + 1) rest seenDirs1
                (alistInsert monitors d1.device m)

/-! ## Specification-side definitions

`rowsEqualSpec` follows the wording of the spec's §4.3 equality clause,
to be compared with the source-derived `rowsEqual`. -/

/-- Nil-safe integer field match per the spec wording: both absent, or
both present with matching values. -/
def optIntMatch (a b : Option Int) : Bool :=
  match a, b with
  | none, none => true
  | some x, some y => x == y
  | _, _ => false

/-- Nil-safe case-insensitive string field match per the spec wording. -/
def optStrFoldMatch (a b : Option String) : Bool :=
  match a, b with
  | none, none => true
  | some x, some y => goToLower x == goToLower y
  | _, _ => false

/-- Modelled from the spec: §4.3 equality — the five optional fields
status, statusDesc (case-insensitive), prdFail, disabled, swap each
pairwise match nil-safely; no other field is consulted. -/
def rowsEqualSpec (a b : Result) : Bool :=
  optIntMatch a.status b.status &&
    optStrFoldMatch a.statusDesc b.statusDesc &&
    optIntMatch a.prdFail b.prdFail &&
    optIntMatch a.disabled b.disabled &&
    optIntMatch a.swap b.swap

/-- The value of the last binding of `addr` in an observation list (the
final overwrite of the Go map insert `devices[sas] = sg`). -/
def lastValueFor (obs : List (String × String)) (addr : String) : Option String :=
  match obs with
  | [] => none
  | p :: rest =>
    match lastValueFor rest addr with
    | some v => some v
    | none => if p.1 = addr then some p.2 else none

/-! ## Concrete example data -/

/-- An element whose `element_type` object is entirely absent, with
`element_number` 0 and no status descriptor. -/
def elemNoType : SESElement :=
  { elementType := none, elementNumber := some 0, statusDescriptor := none }

/-- An element whose `element_type` object is present but without `i`. -/
def elemMissingI : SESElement :=
  { elementType := some { i := none, meaning := none },
    elementNumber := some 1, statusDescriptor := none }

/-- A well-formed element whose `status_descriptor.temperature` object
lacks the `meaning` field (JSON
`{"element_type":{"i":1},"element_number":0,
  "status_descriptor":{"temperature":{"i":25}}}`). -/
def elemTempNoMeaning : SESElement :=
  { elementType := some { i := some 1, meaning := none },
    elementNumber := some 0,
    statusDescriptor := some
      { status := none, prdFail := none, disabled := none, swap := none,
        temperature := some { i := some 25, meaning := none },
        voltage := none, current := none } }

/-! ## Association-list lemmas -/

theorem alistLookup_insert_self {β : Type} (l : List (String × β)) (k : String) (v : β) :
    alistLookup (alistInsert l k v) k = some v := by
  induction l with
  | nil => simp [alistInsert, alistLookup]
  | cons p rest ih =>
    by_cases h : p.1 = k
    · simp [alistInsert, h, alistLookup]
    · simp [alistInsert, h, alistLookup, ih]

theorem alistLookup_insert_other {β : Type} (l : List (String × β)) (k a : String) (v : β)
    (h : a ≠ k) : alistLookup (alistInsert l k v) a = alistLookup l a := by
  have hka : ¬(k = a) := fun hh => h hh.symm
  induction l with
  | nil => simp [alistInsert, alistLookup, hka]
  | cons p rest ih =>
    by_cases hp : p.1 = k
    · have hpa : ¬(p.1 = a) := by rw [hp]; exact hka
      have hins : alistInsert (p :: rest) k v = (k, v) :: rest := by
        simp [alistInsert, hp]
      rw [hins]
      simp [alistLookup, hka, hpa]
    · have hins : alistInsert (p :: rest) k v = p :: alistInsert rest k v := by
        simp [alistInsert, hp]
      rw [hins]
      by_cases ha : p.1 = a
      · simp [alistLookup, ha]
      · simp [alistLookup, ha, ih]

/-! ## Pointer-helper lemmas -/

theorem ptrIntEqual_eq_optIntMatch (a b : Option Int) :
    ptrIntEqual a b = optIntMatch a b := by
  cases a <;> cases b <;> rfl

theorem ptrStrEqualFold_eq_optStrFoldMatch (a b : Option String) :
    ptrStrEqualFold a b = optStrFoldMatch a b := by
  cases a <;> cases b <;> rfl

theorem ptrIntEqual_refl (a : Option Int) : ptrIntEqual a a = true := by
  cases a <;> simp [ptrIntEqual]

theorem ptrStrEqualFold_refl (a : Option String) : ptrStrEqualFold a a = true := by
  cases a <;> simp [ptrStrEqualFold, strEqualFold]

theorem rowsEqual_refl (a : Result) : rowsEqual a a = true := by
  simp [rowsEqual, ptrIntEqual_refl, ptrStrEqualFold_refl]

/-! ## Claim C2 -/

/-- C2: `rowsEqual a b` holds iff the five optional fields status,
statusDesc (compared case-insensitively), prdFail, disabled and swap
each pairwise match nil-safely (both absent, or both present with
matching values); temperature, voltage, amperage, typeDesc, type and
typeNum play no role, so two Results differing only in those fields are
equal and produce no diff entry. -/
theorem rowsEqual_spec_and_metric_immunity :
    (∀ a b : Result, rowsEqual a b = rowsEqualSpec a b) ∧
    (∀ (a b : Result) (td t v amp : Option String) (ty tn : Int),
      rowsEqual a { b with typeDesc := td, typ := ty, typeNum := tn,
                           temperature := t, voltage := v, amperage := amp }
        = rowsEqual a b) ∧
    (∀ (k : String) (a : Result) (td t v amp : Option String) (ty tn : Int),
      rowsDiffAt [(k, a)]
        [(k, { a with typeDesc := td, typ := ty, typeNum := tn,
                      temperature := t, voltage := v, amperage := amp })] k = none) := by
  refine ⟨?_, ?_, ?_⟩
  · intro a b
    simp [rowsEqual, rowsEqualSpec, ptrIntEqual_eq_optIntMatch,
      ptrStrEqualFold_eq_optStrFoldMatch]
  · intro a b td t v amp ty tn
    rfl
  · intro k a td t v amp ty tn
    have h1 : rowsEqual a { a with typeDesc := td, typ := ty, typeNum := tn,
                                   temperature := t, voltage := v, amperage := amp }
        = rowsEqual a a := rfl
    simp [rowsDiffAt, alistLookup, h1, rowsEqual_refl]

/-! ## Claim C1 -/

/-- C1 counterexample: an element whose `element_type` object is
entirely absent but which has `element_number` 0 is NOT skipped by
parseSES — the Go `continue` sits inside the `if el.ElementType != nil`
block, so the element falls through with the zero type, is keyed
"0#0", and appears in the result map. -/
theorem parseSES_keeps_element_without_elementType :
    parseSESElems [elemNoType] = some [("0#0", zeroResult)] ∧
    alistLookup ((parseSESElems [elemNoType]).getD []) "0#0" = some zeroResult := by
  constructor <;> rfl

/-- C1 (amended): every element whose `element_type` object is present
but lacks `i`, or which lacks `element_number`, is skipped and
contributes no entry to the result map (removing it from the element
list leaves the parse unchanged); an element whose `element_type` object
is entirely absent is not covered by the skip rule. -/
theorem parseSES_skip_rule (acc : List (String × Result)) (l1 l2 : List SESElement)
    (el : SESElement)
    (h : (∃ et, el.elementType = some et ∧ et.i = none) ∨ el.elementNumber = none) :
    parseSESElemsAux acc (l1 ++ el :: l2) = parseSESElemsAux acc (l1 ++ l2) := by
  have hskip : parseElement el = .skip := by
    rcases h with ⟨et, h1, h2⟩ | h1
    · simp [parseElement, h1, h2]
    · cases hty : el.elementType with
      | none => simp [parseElement, hty, parseNumberStage, h1]
      | some et =>
        cases hi : et.i with
        | none => simp [parseElement, hty, hi]
        | some iv => simp [parseElement, hty, hi, parseNumberStage, h1]
  induction l1 generalizing acc with
  | nil => simp [parseSESElemsAux, hskip]
  | cons e es ih =>
    simp only [List.cons_append, parseSESElemsAux]
    cases parseElement e <;> simp [ih]

theorem parseSES_skip_rule_witness :
    parseSESElems [elemMissingI] = some [] := by
  have h := parseSES_skip_rule [] [] [] elemMissingI
    (Or.inl ⟨{ i := none, meaning := none }, rfl, rfl⟩)
  simpa [parseSESElems, parseSESElemsAux] using h

/-! ## Claim C5 -/

/-- C5 (the code at the failing input): on a well-formed document whose
`status_descriptor` carries a temperature object without a `meaning`
field, parseSES dereferences the nil `Meaning` pointer and panics; the
parse crashes instead of succeeding with a result map. -/
theorem parseSES_crashes_on_temperature_without_meaning :
    parseSESElems [elemTempNoMeaning] = none := rfl

/-! ## Claim C6 -/

/-- C6 counterexample: two change reports written with the same
second-precision timestamp resolve to the same filename; the second
call succeeds (returns no error) and replaces the first file's
contents, contradicting the claimed fail-on-collision behaviour. -/
theorem writeChangeReport_collision_overwrites :
    (writeChangeReportGo (fun r => r.detectedAt) "out" "20250101-120000"
        (writeChangeReportGo (fun r => r.detectedAt) "out" "20250101-120000" []
          { devicePath := "/dev/sg0", detectedAt := "A", changes := [] }).1
        { devicePath := "/dev/sg0", detectedAt := "B", changes := [] }).2 = none ∧
    alistLookup (writeChangeReportGo (fun r => r.detectedAt) "out" "20250101-120000"
        (writeChangeReportGo (fun r => r.detectedAt) "out" "20250101-120000" []
          { devicePath := "/dev/sg0", detectedAt := "A", changes := [] }).1
        { devicePath := "/dev/sg0", detectedAt := "B", changes := [] }).1
      "out/change-20250101-120000.json" = some "B" := by
  constructor <;> rfl

/-- C6 (amended): writeChangeReport writes the report as pretty-printed
JSON to `<outputDir>/change-YYYYMMDD-HHMMSS.json` (local wall-clock
second precision) and leaves every other path unchanged; it reports no
error, and when two reports resolve to the same timestamped filename
the second call also succeeds and replaces the first file's contents
(last writer wins). -/
theorem writeChangeReport_writes_report (marshal : ChangeReportModel → String)
    (outputDir timestamp : String) (fs : FsModel) (report : ChangeReportModel) :
    (writeChangeReportGo marshal outputDir timestamp fs report).2 = none ∧
    alistLookup (writeChangeReportGo marshal outputDir timestamp fs report).1
      (outputDir ++ "/" ++ changeReportFilename timestamp) = some (marshal report) ∧
    ∀ p, p ≠ outputDir ++ "/" ++ changeReportFilename timestamp →
      alistLookup (writeChangeReportGo marshal outputDir timestamp fs report).1 p
        = alistLookup fs p := by
  refine ⟨rfl, ?_, ?_⟩
  · exact alistLookup_insert_self fs
      (outputDir ++ "/" ++ changeReportFilename timestamp) (marshal report)
  · intro p hp
    exact alistLookup_insert_other fs
      (outputDir ++ "/" ++ changeReportFilename timestamp) p (marshal report) hp

theorem writeChangeReport_writes_report_witness :
    alistLookup (writeChangeReportGo (fun _ => "data") "d" "t" [("x", "old")]
      { devicePath := "", detectedAt := "", changes := [] }).1 "x" = some "old" :=
  (writeChangeReport_writes_report (fun _ => "data") "d" "t" [("x", "old")]
    { devicePath := "", detectedAt := "", changes := [] }).2.2 "x" (by decide)

/-! ## Claim C9 -/

/-- C9: a configured device entry whose enabled field is false (the Go
zero value, hence also the YAML default when the field is absent) is
skipped entirely by the NewProgram loop: the loop advances the entry
index and touches neither the seen-output-dirs set nor the monitor map,
so none of the per-entry validations apply to it and an
otherwise-invalid but disabled entry never causes supervisor creation
to fail. -/
theorem programLoop_skips_disabled {ε μ : Type}
    (lookupF : DeviceYAMLModel → Except ε DeviceYAMLModel)
    (setupF : DeviceYAMLModel → Except ε μ) (i : Nat) (d : DeviceYAMLModel)
    (rest : List DeviceYAMLModel) (seenDirs : List String)
    (monitors : List (String × μ)) (h : d.enabled = false) :
    programLoop lookupF setupF i (d :: rest) seenDirs monitors
      = programLoop lookupF setupF (i + 1) rest seenDirs monitors ∧
    programLoop lookupF setupF i [d] seenDirs monitors = .ok monitors := by
  constructor
  · simp [programLoop, h]
  · simp [programLoop, h]

theorem programLoop_skips_disabled_witness :
    programLoop (fun _ => Except.error ()) (fun _ => Except.error ()) 0
      [{ device := "", address := "", enabled := false, monitorConfig := none }]
      [] ([] : List (String × Unit)) = .ok [] :=
  (programLoop_skips_disabled (fun _ => Except.error ()) (fun _ => Except.error ()) 0
    { device := "", address := "", enabled := false, monitorConfig := none }
    [] [] [] rfl).2

/-! ## Claim C10 -/

/-- C10: if the monitor's outer context is already cancelled or its stop
channel is already closed when pollFailure is invoked, pollFailure
returns immediately with the monitor state unchanged and without any
effect: no pollFailures increment, no logging, no back-off
notification, no Stop call and no back-off wait. -/
theorem pollFailure_early_return (cfg : MonitorBackoffConfig) (np : Bool)
    (ctxDoneAtEntry cdw scw : Bool) (st : MonitorState)
    (h : ctxDoneAtEntry = true ∨ st.stopClosed = true) :
    pollFailureGo cfg np ctxDoneAtEntry cdw scw st = (st, []) := by
  rcases h with h | h <;> simp [pollFailureGo, h]

theorem pollFailure_early_return_witness :
    pollFailureGo { pollBackoffAfter := 3, pollBackoffNotify := true,
                    pollBackoffStopMonitor := false } true true false false
      { pollFailures := 2, lastAlertHash := "h", previousResults := none,
        stopClosed := false }
      = ({ pollFailures := 2, lastAlertHash := "h", previousResults := none,
           stopClosed := false }, []) :=
  pollFailure_early_return _ _ _ _ _ _ (Or.inl rfl)


/-! ## Claim C4 -/

/-- From a state whose hash is that of the previously dispatched message
`p`, the dispatched messages never repeat an adjacent predecessor. -/
theorem alertMessages_from_hash (hashOf : String → String)
    (hne : ∀ s, hashOf s ≠ "") (ms : List String) :
    ∀ p : String, adjacentDistinct (p :: alertMessages hashOf (hashOf p) ms) := by
  induction ms with
  | nil =>
    intro p
    exact trivial
  | cons m rest ih =>
    intro p
    by_cases hc : hashOf p = hashOf m
    · have hcond : hashOf p ≠ "" ∧ hashOf p = hashOf m := ⟨hne p, hc⟩
      simp only [alertMessages, alertStep, if_pos hcond]
      exact ih p
    · have hcond : ¬(hashOf p ≠ "" ∧ hashOf p = hashOf m) := fun hx => hc hx.2
      simp only [alertMessages, alertStep, if_neg hcond, if_pos]
      refine ⟨fun heq => hc (by rw [heq]), ih m⟩

/-- C4: for a poll with a non-empty change set, the alert (log line,
notifier task, change-report write) is dispatched iff the message hash
differs from lastAlertHash or lastAlertHash is empty; on dispatch
lastAlertHash becomes the new hash and the notifier (when present)
receives the message, on suppression lastAlertHash is unchanged and the
notifier is not invoked; consequently — since the hex SHA-256 hash of a
message is never the empty string — the notifier is never invoked with
a message byte-identical to the immediately preceding alert's
message. -/
theorem alert_dedup_spec :
    (∀ (hashOf : String → String) (last msg : String) (np : Bool),
      ((alertStep hashOf last msg np).dispatched = true ↔
        last = "" ∨ last ≠ hashOf msg) ∧
      ((alertStep hashOf last msg np).dispatched = true →
        (alertStep hashOf last msg np).newHash = hashOf msg ∧
        (alertStep hashOf last msg np).notifierMsg
          = (if np then some msg else none)) ∧
      ((alertStep hashOf last msg np).dispatched = false →
        (alertStep hashOf last msg np).newHash = last ∧
        (alertStep hashOf last msg np).notifierMsg = none)) ∧
    (∀ (hashOf : String → String) (msgs : List String),
      (∀ s, hashOf s ≠ "") → adjacentDistinct (alertMessages hashOf "" msgs)) := by
  constructor
  · intro hashOf last msg np
    by_cases hc : last ≠ "" ∧ last = hashOf msg
    · refine ⟨?_, ?_, ?_⟩
      · constructor
        · intro hd
          simp [alertStep, if_pos hc] at hd
        · intro hd
          exfalso
          rcases hd with hd | hd
          · exact hc.1 hd
          · exact hd hc.2
      · intro hd
        simp [alertStep, if_pos hc] at hd
      · intro _
        simp [alertStep, if_pos hc]
    · refine ⟨?_, ?_, ?_⟩
      · constructor
        · intro _
          rcases not_and_or.mp hc with h | h
          · exact Or.inl (not_not.mp h)
          · exact Or.inr h
        · intro _
          simp [alertStep, if_neg hc]
      · intro _
        simp [alertStep, if_neg hc]
      · intro hd
        simp [alertStep, if_neg hc] at hd
  · intro hashOf msgs hne
    cases msgs with
    | nil => exact trivial
    | cons m rest =>
      have hcond : ¬(("" : String) ≠ "" ∧ ("" : String) = hashOf m) :=
        fun hx => hx.1 rfl
      simp only [alertMessages, alertStep, if_neg hcond]
      exact alertMessages_from_hash hashOf hne rest m

theorem alert_dedup_spec_witness :
    adjacentDistinct (alertMessages (fun _ => "X") "" ["a", "a"]) :=
  alert_dedup_spec.2 (fun _ => "X") ["a", "a"]
    (fun _ => by show ("X" : String) ≠ ""; decide)

/-! ## Claim C7 -/

/-- Unfolding lemma: the loop with no iterations left returns the count
and maps the last error. -/
theorem retryLoopGo_zero {ε : Type} (ctx : Nat → Bool) (f : Nat → Option ε)
    (n attempt t : Nat) (last : Option ε) :
    retryLoopGo ctx f n 0 attempt t last = (attempt, last.map RetryError.opError) := rfl

/-- Unfolding lemma: one iteration of the loop. -/
theorem retryLoopGo_succ {ε : Type} (ctx : Nat → Bool) (f : Nat → Option ε)
    (n r attempt t : Nat) (last : Option ε) :
    retryLoopGo ctx f n (r + 1) attempt t last
      = if ctx t = true then (attempt, some .ctxCancelled)
        else
          match f attempt with
          | none => (attempt + 1, none)
          | some e =>
            if attempt + 1 < n then
              if ctx (t + 1) = true then (attempt + 1, some .ctxCancelled)
              else retryLoopGo ctx f n r (attempt + 1) (t + 2) (some e)
            else retryLoopGo ctx f n r (attempt + 1) (t + 1) (some e) := rfl

/-- The retry loop never counts more invocations than the iterations it
has left plus those already made. -/
theorem retryLoop_count_le {ε : Type} (ctx : Nat → Bool) (f : Nat → Option ε) (n : Nat) :
    ∀ (remaining attempt t : Nat) (last : Option ε),
      (retryLoopGo ctx f n remaining attempt t last).1 ≤ attempt + remaining := by
  intro remaining
  induction remaining with
  | zero =>
    intro attempt t last
    rw [retryLoopGo_zero]
    show attempt ≤ attempt + 0
    omega
  | succ r ih =>
    intro attempt t last
    by_cases hc : ctx t = true
    · rw [retryLoopGo_succ, if_pos hc]
      show attempt ≤ attempt + (r + 1)
      omega
    · cases hf : f attempt with
      | none =>
        rw [retryLoopGo_succ, if_neg hc, hf]
        show attempt + 1 ≤ attempt + (r + 1)
        omega
      | some e =>
        have hred : retryLoopGo ctx f n (r + 1) attempt t last
            = if attempt + 1 < n then
                (if ctx (t + 1) = true then (attempt + 1, some RetryError.ctxCancelled)
                 else retryLoopGo ctx f n r (attempt + 1) (t + 2) (some e))
              else retryLoopGo ctx f n r (attempt + 1) (t + 1) (some e) := by
          rw [retryLoopGo_succ, if_neg hc, hf]
        rw [hred]
        by_cases hlt : attempt + 1 < n
        · rw [if_pos hlt]
          by_cases hc2 : ctx (t + 1) = true
          · rw [if_pos hc2]
            show attempt + 1 ≤ attempt + (r + 1)
            omega
          · rw [if_neg hc2]
            have := ih (attempt + 1) (t + 2) (some e)
            omega
        · rw [if_neg hlt]
          have := ih (attempt + 1) (t + 1) (some e)
          omega

/-- With the context never cancelled, the loop returns success right
after the first succeeding invocation. -/
theorem retryLoop_first_success {ε : Type} (ctx : Nat → Bool) (f : Nat → Option ε)
    (n : Nat) (hctx : ∀ t, ctx t = false) :
    ∀ (k remaining attempt t : Nat) (last : Option ε),
      k < remaining → f (attempt + k) = none →
      (∀ i, attempt ≤ i → i < attempt + k → f i ≠ none) →
      retryLoopGo ctx f n remaining attempt t last = (attempt + k + 1, none) := by
  intro k
  induction k with
  | zero =>
    intro remaining attempt t last hk hf _
    cases remaining with
    | zero => omega
    | succ r =>
      have hf0 : f attempt = none := by simpa using hf
      rw [retryLoopGo_succ, if_neg (by simp [hctx t])]
      simp only [hf0]
  | succ k ih =>
    intro remaining attempt t last hk hf hall
    cases remaining with
    | zero => omega
    | succ r =>
      have hfa : f attempt ≠ none := hall attempt le_rfl (by omega)
      cases hfe : f attempt with
      | none => exact absurd hfe hfa
      | some e =>
        have hfn : f (attempt + 1 + k) = none := by
          have harith : attempt + 1 + k = attempt + (k + 1) := by omega
          rw [harith]; exact hf
        have hrange : ∀ i, attempt + 1 ≤ i → i < attempt + 1 + k → f i ≠ none :=
          fun i h1 h2 => hall i (by omega) (by omega)
        have harith : attempt + 1 + k + 1 = attempt + (k + 1) + 1 := by omega
        rw [retryLoopGo_succ, if_neg (by simp [hctx t])]
        simp only [hfe]
        by_cases hlt : attempt + 1 < n
        · rw [if_pos hlt, if_neg (by simp [hctx (t + 1)]),
            ih r (attempt + 1) (t + 2) (some e) (by omega) hfn hrange, harith]
        · rw [if_neg hlt,
            ih r (attempt + 1) (t + 1) (some e) (by omega) hfn hrange, harith]

/-- With the context never cancelled and every invocation failing, the
loop exhausts its iterations and returns the last error. -/
theorem retryLoop_exhaust {ε : Type} (ctx : Nat → Bool) (f : Nat → Option ε)
    (n : Nat) (hctx : ∀ t, ctx t = false) :
    ∀ (remaining attempt t : Nat) (last : Option ε) (e : ε),
      1 ≤ remaining →
      (∀ i, attempt ≤ i → i < attempt + remaining → f i ≠ none) →
      f (attempt + remaining - 1) = some e →
      retryLoopGo ctx f n remaining attempt t last
        = (attempt + remaining, some (.opError e)) := by
  intro remaining
  induction remaining with
  | zero => intro attempt t last e h1; omega
  | succ r ih =>
    intro attempt t last e h1 hall hlast
    have hfa : f attempt ≠ none := hall attempt le_rfl (by omega)
    cases hfe : f attempt with
    | none => exact absurd hfe hfa
    | some e1 =>
      cases r with
      | zero =>
        have he : e1 = e := by
          have hx : f attempt = some e := by simpa using hlast
          rw [hfe] at hx
          exact (Option.some.injEq e1 e).mp hx
        subst he
        rw [retryLoopGo_succ, if_neg (by simp [hctx t])]
        simp only [hfe]
        by_cases hlt : attempt + 1 < n
        · rw [if_pos hlt, if_neg (by simp [hctx (t + 1)]), retryLoopGo_zero]
          rfl
        · rw [if_neg hlt, retryLoopGo_zero]
          rfl
      | succ r2 =>
        have hlast1 : f (attempt + 1 + (r2 + 1) - 1) = some e := by
          have harith : attempt + 1 + (r2 + 1) - 1 = attempt + (r2 + 1 + 1) - 1 := by
            omega
          rw [harith]; exact hlast
        have hrange : ∀ i, attempt + 1 ≤ i → i < attempt + 1 + (r2 + 1) → f i ≠ none :=
          fun i hi1 hi2 => hall i (by omega) (by omega)
        have harith : attempt + 1 + (r2 + 1) = attempt + (r2 + 1 + 1) := by omega
        rw [retryLoopGo_succ, if_neg (by simp [hctx t])]
        simp only [hfe]
        by_cases hlt : attempt + 1 < n
        · rw [if_pos hlt, if_neg (by simp [hctx (t + 1)]),
            ih (attempt + 1) (t + 2) (some e1) e (by omega) hrange hlast1, harith]
        · rw [if_neg hlt,
            ih (attempt + 1) (t + 1) (some e1) e (by omega) hrange hlast1, harith]

/-- C7: withRetries performs zero invocations with count 0 and no error
when attempts ≤ 0; rejects a nil op with an invalid-argument error
without invoking anything; fails fast with a context error before the
first invocation when the context is already cancelled (no attempt
counted); and otherwise invokes the op at most `attempts` times,
returning immediately after the first success, and on exhaustion
returns the last op error together with the invocation count. -/
theorem withRetries_spec {ε : Type} :
    (∀ (ctx : Nat → Bool) (f : Nat → Option ε) (attempts : Int),
      attempts ≤ 0 → withRetriesGo ctx (some f) attempts = (0, none)) ∧
    (∀ (ctx : Nat → Bool) (attempts : Int),
      withRetriesGo ctx (none : Option (Nat → Option ε)) attempts
        = (0, some .invalidArg)) ∧
    (∀ (ctx : Nat → Bool) (f : Nat → Option ε) (attempts : Int),
      0 < attempts → ctx 0 = true →
      withRetriesGo ctx (some f) attempts = (0, some .ctxCancelled)) ∧
    (∀ (ctx : Nat → Bool) (f : Nat → Option ε) (attempts : Int),
      (∀ t, ctx t = false) →
      ((withRetriesGo ctx (some f) attempts).1 ≤ attempts.toNat) ∧
      (∀ k, k < attempts.toNat → f k = none → (∀ i, i < k → f i ≠ none) →
        withRetriesGo ctx (some f) attempts = (k + 1, none)) ∧
      (0 < attempts → (∀ i, i < attempts.toNat → f i ≠ none) →
        ∀ e, f (attempts.toNat - 1) = some e →
        withRetriesGo ctx (some f) attempts
          = (attempts.toNat, some (.opError e)))) := by
  refine ⟨?_, ?_, ?_, ?_⟩
  · intro ctx f attempts h
    have h0 : attempts.toNat = 0 := Int.toNat_of_nonpos h
    simp only [withRetriesGo, h0]
    rw [retryLoopGo_zero]
    rfl
  · intro ctx attempts
    rfl
  · intro ctx f attempts h hc
    have hpos : 0 < attempts.toNat := by omega
    obtain ⟨m, hm⟩ : ∃ m, attempts.toNat = m + 1 :=
      ⟨attempts.toNat - 1, by omega⟩
    simp only [withRetriesGo]
    rw [hm, retryLoopGo_succ, if_pos hc]
  · intro ctx f attempts hctx
    refine ⟨?_, ?_, ?_⟩
    · simpa using retryLoop_count_le ctx f attempts.toNat attempts.toNat 0 0 none
    · intro k hk hfk hprev
      have := retryLoop_first_success ctx f attempts.toNat hctx k attempts.toNat 0 0
        none hk (by simpa using hfk) (fun i _ h2 => hprev i (by omega))
      simpa using this
    · intro hpos hall e hlast
      have := retryLoop_exhaust ctx f attempts.toNat hctx attempts.toNat 0 0 none e
        (by omega) (fun i _ h2 => hall i (by omega)) (by simpa using hlast)
      simpa using this

theorem withRetries_spec_witness :
    withRetriesGo (fun _ => false)
      (some (fun i => if i = 0 then some 7 else none)) 3 = (2, none) ∧
    withRetriesGo (fun _ => true) (some (fun _ => (none : Option Nat))) 2
      = (0, some .ctxCancelled) ∧
    withRetriesGo (fun _ => false) (some (fun _ => (none : Option Nat))) (-1)
      = (0, none) ∧
    withRetriesGo (fun _ => false) (some (fun _ => some 5)) 2
      = (2, some (.opError 5)) := by
  refine ⟨?_, ?_, ?_, ?_⟩
  · exact (withRetries_spec.2.2.2 (fun _ => false)
      (fun i => if i = 0 then some 7 else none) 3 (fun _ => rfl)).2.1 1 (by decide)
      (by decide)
      (fun i hi => by
        have h0 : i = 0 := Nat.lt_one_iff.mp hi
        subst h0
        decide)
  · exact withRetries_spec.2.2.1 (fun _ => true) (fun _ => (none : Option Nat)) 2
      (by decide) rfl
  · exact withRetries_spec.1 (fun _ => false) (fun _ => (none : Option Nat)) (-1)
      (by decide)
  · exact (withRetries_spec.2.2.2 (fun _ => false) (fun _ => some 5) 2
      (fun _ => rfl)).2.2 (by decide) (fun i _ => by simp) 5 (by decide)

/-! ## Claim C3 -/

theorem alistLookup_isSome_iff {β : Type} (l : List (String × β)) (k : String) :
    (alistLookup l k).isSome = true ↔ k ∈ l.map Prod.fst := by
  induction l with
  | nil => simp [alistLookup]
  | cons p rest ih =>
    by_cases h : p.1 = k
    · simp [alistLookup, h]
    · have hne : ¬(k = p.1) := fun heq => h heq.symm
      simp [alistLookup, h, List.mem_cons, hne, ih]

/-- Every Change produced for a key of the union carries that key. -/
theorem rowsDiffAt_id (prev curr : List (String × Result)) (k : String) (ch : Change)
    (h : rowsDiffAt prev curr k = some ch) : ch.id = k := by
  simp only [rowsDiffAt] at h
  split at h
  · injection h with h2
    subst h2
    rfl
  · exact absurd h (by simp)

/-- A Change is produced for a key exactly when a side is missing or the
pair is unequal under rowsEqual. -/
theorem rowsDiffAt_isSome (prev curr : List (String × Result)) (k : String) :
    (rowsDiffAt prev curr k).isSome
      = ((alistLookup prev k).isNone || (alistLookup curr k).isNone ||
        !(rowsEqual ((alistLookup prev k).getD zeroResult)
          ((alistLookup curr k).getD zeroResult))) := by
  simp only [rowsDiffAt]
  split
  · rename_i hcond
    simp [hcond]
  · rename_i hcond
    rw [Bool.not_eq_true] at hcond
    simp [hcond]

/-- Counting Changes with a given id over a nodup key list. -/
theorem countP_filterMap_nodup (prev curr : List (String × Result)) (k : String) :
    ∀ l : List String, l.Nodup →
      (l.filterMap (rowsDiffAt prev curr)).countP (fun ch => ch.id == k)
        = if k ∈ l ∧ (rowsDiffAt prev curr k).isSome = true then 1 else 0 := by
  intro l
  induction l with
  | nil =>
    intro _
    simp
  | cons a rest ih =>
    intro hnd
    obtain ⟨hna, hnd2⟩ := List.nodup_cons.mp hnd
    cases hda : rowsDiffAt prev curr a with
    | none =>
      rw [List.filterMap_cons_none hda, ih hnd2]
      by_cases hk : k = a
      · subst hk
        simp [hda]
      · simp [List.mem_cons, hk]
    | some ch =>
      rw [List.filterMap_cons_some hda, List.countP_cons, ih hnd2]
      have hid : ch.id = a := rowsDiffAt_id prev curr a ch hda
      by_cases hk : k = a
      · subst hk
        have h1 : ¬(k ∈ rest ∧ (rowsDiffAt prev curr k).isSome = true) :=
          fun hx => hna hx.1
        rw [if_neg h1]
        simp [hid, hda]
      · have hbk : (ch.id == k) = false := by
          rw [hid]
          exact beq_eq_false_iff_ne.mpr (fun heq => hk heq.symm)
        simp [hbk, List.mem_cons, hk]

/-- C3: for every key of the union of the two maps, rowsDiff contains
exactly one Change with that key as id iff the key is missing from one
of the two maps or the two Results are unequal under rowsEqual, no
Change for keys whose pair is equal, and zero Changes for unknown keys;
in particular rowsDiff(a, a) is empty for every map a. -/
theorem rowsDiff_complete :
    (∀ (prev curr : List (String × Result)) (k : String),
      (rowsDiff prev curr).countP (fun ch => ch.id == k)
        = match alistLookup prev k, alistLookup curr k with
          | none, none => 0
          | some p, some c => if rowsEqual p c then 0 else 1
          | _, _ => 1) ∧
    (∀ a : List (String × Result), rowsDiff a a = []) := by
  constructor
  · intro prev curr k
    have hnd : ((prev.map Prod.fst ++ curr.map Prod.fst).dedup).Nodup :=
      List.nodup_dedup _
    have hcount := countP_filterMap_nodup prev curr k _ hnd
    rw [show rowsDiff prev curr
        = ((prev.map Prod.fst ++ curr.map Prod.fst).dedup).filterMap
            (rowsDiffAt prev curr) from rfl, hcount]
    cases hp : alistLookup prev k with
    | none =>
      cases hc2 : alistLookup curr k with
      | none =>
        have hmem : k ∉ (prev.map Prod.fst ++ curr.map Prod.fst).dedup := by
          intro hmm
          rcases List.mem_append.mp (List.mem_dedup.mp hmm) with h | h
          · have hs := (alistLookup_isSome_iff prev k).mpr h
            rw [hp] at hs
            simp at hs
          · have hs := (alistLookup_isSome_iff curr k).mpr h
            rw [hc2] at hs
            simp at hs
        simp [hmem]
      | some c =>
        have hmem : k ∈ (prev.map Prod.fst ++ curr.map Prod.fst).dedup := by
          rw [List.mem_dedup, List.mem_append]
          exact Or.inr ((alistLookup_isSome_iff curr k).mp (by simp [hc2]))
        have hsome : (rowsDiffAt prev curr k).isSome = true := by
          rw [rowsDiffAt_isSome, hp]
          simp
        simp [hmem, hsome]
    | some p =>
      have hmem : k ∈ (prev.map Prod.fst ++ curr.map Prod.fst).dedup := by
        rw [List.mem_dedup, List.mem_append]
        exact Or.inl ((alistLookup_isSome_iff prev k).mp (by simp [hp]))
      cases hc2 : alistLookup curr k with
      | none =>
        have hsome : (rowsDiffAt prev curr k).isSome = true := by
          rw [rowsDiffAt_isSome, hc2]
          simp
        simp [hmem, hsome]
      | some c =>
        by_cases he : rowsEqual p c = true
        · have hnot : (rowsDiffAt prev curr k).isSome = false := by
            rw [rowsDiffAt_isSome, hp, hc2]
            simp [he]
          simp [hnot, he]
        · have hsome : (rowsDiffAt prev curr k).isSome = true := by
            rw [rowsDiffAt_isSome, hp, hc2]
            simp [Bool.eq_false_iff.mpr he]
          have he2 : rowsEqual p c = false := Bool.eq_false_iff.mpr he
          simp [hmem, hsome, he2]
  · intro a
    rw [show rowsDiff a a
        = ((a.map Prod.fst ++ a.map Prod.fst).dedup).filterMap (rowsDiffAt a a)
        from rfl]
    rw [List.filterMap_eq_nil_iff]
    intro k hk
    have hks : (alistLookup a k).isSome = true := by
      rw [alistLookup_isSome_iff]
      rcases List.mem_append.mp (List.mem_dedup.mp hk) with h | h <;> exact h
    obtain ⟨p, hp⟩ := Option.isSome_iff_exists.mp hks
    simp [rowsDiffAt, hp, rowsEqual_refl]

/-! ## Claim C8 -/

/-- Looking up in a map filtered by a key predicate. -/
theorem alistLookup_filter_keys {β : Type} (ign : List String)
    (l : List (String × β)) (a : String) :
    alistLookup (l.filter (fun p => !(ign.contains p.1))) a
      = if a ∈ ign then none else alistLookup l a := by
  induction l with
  | nil => by_cases hm : a ∈ ign <;> simp [alistLookup, hm]
  | cons p rest ih =>
    rw [List.filter_cons]
    by_cases hpa : p.1 = a
    · by_cases hm : a ∈ ign
      · have hmp : p.1 ∈ ign := by rw [hpa]; exact hm
        rw [if_neg (by simp [hmp]), ih, if_pos hm, if_pos hm]
      · have hmp : p.1 ∉ ign := by rw [hpa]; exact hm
        rw [if_pos (by simp [hmp]), if_neg hm]
        simp [alistLookup, hpa]
    · by_cases hmp : p.1 ∈ ign
      · rw [if_neg (by simp [hmp]), ih]
        by_cases hm : a ∈ ign
        · rw [if_pos hm, if_pos hm]
        · rw [if_neg hm, if_neg hm]
          simp [alistLookup, hpa]
      · rw [if_pos (by simp [hmp])]
        have hstep : alistLookup (p :: List.filter (fun q => !(ign.contains q.1)) rest) a
            = alistLookup (List.filter (fun q => !(ign.contains q.1)) rest) a := by
          simp [alistLookup, hpa]
        have hstep2 : alistLookup (p :: rest) a = alistLookup rest a := by
          simp [alistLookup, hpa]
        rw [hstep, ih, hstep2]

theorem lastValueFor_of_filter_nil (obs : List (String × String)) (addr : String)
    (h : obs.filter (fun p => p.1 == addr) = []) : lastValueFor obs addr = none := by
  induction obs with
  | nil => rfl
  | cons p rest ih =>
    rw [List.filter_cons] at h
    by_cases hpa : p.1 = addr
    · exfalso
      simp [hpa] at h
    · have hb : (p.1 == addr) = false := beq_eq_false_iff_ne.mpr hpa
      rw [hb, if_neg (by decide)] at h
      simp [lastValueFor, ih h, hpa]

theorem lastValueFor_of_filter_singleton (obs : List (String × String))
    (addr sg : String) (h : obs.filter (fun p => p.1 == addr) = [(addr, sg)]) :
    lastValueFor obs addr = some sg := by
  induction obs with
  | nil => simp at h
  | cons p rest ih =>
    rw [List.filter_cons] at h
    by_cases hpa : p.1 = addr
    · have hb : (p.1 == addr) = true := beq_iff_eq.mpr hpa
      rw [hb, if_pos rfl] at h
      simp only [List.cons.injEq] at h
      obtain ⟨hp1, hrest⟩ := h
      have hnone := lastValueFor_of_filter_nil rest addr hrest
      simp [lastValueFor, hnone, hpa, hp1]
    · have hb : (p.1 == addr) = false := beq_eq_false_iff_ne.mpr hpa
      rw [hb, if_neg (by decide)] at h
      simp [lastValueFor, ih h]

/-- Complete characterisation of the NewDeviceFinder enumeration loop:
which addresses end up in the ignored set, and which device node each
address maps to (the last glob match wins in the devices map before the
ignored deletion). -/
theorem finderLoop_characterize :
    ∀ (entries : List SgEntry) (devices : List (String × String))
      (ignored : List String) (addr : String),
      (addr ∈ (finderLoop entries devices ignored).2 ↔
        (addr ∈ ignored ∨
          ((alistLookup devices addr).isSome = true ∧
            1 ≤ (sasObservations entries).countP (fun p => p.1 == addr)) ∨
          2 ≤ (sasObservations entries).countP (fun p => p.1 == addr))) ∧
      (alistLookup (finderLoop entries devices ignored).1 addr
        = match lastValueFor (sasObservations entries) addr with
          | some sg => some ("/dev/" ++ sg)
          | none => alistLookup devices addr) := by
  intro entries
  induction entries with
  | nil =>
    intro devices ignored addr
    constructor
    · simp [finderLoop, sasObservations, lastValueFor]
    · simp [finderLoop, sasObservations, lastValueFor]
  | cons e rest ih =>
    intro devices ignored addr
    cases hn : normalizeSas e.sasRead with
    | none =>
      have hobs : sasObservations (e :: rest) = sasObservations rest := by
        simp [sasObservations, List.filterMap_cons, hn]
      have hloop : finderLoop (e :: rest) devices ignored
          = finderLoop rest devices ignored := by
        simp [finderLoop, hn]
      rw [hloop, hobs]
      exact ih devices ignored addr
    | some sas =>
      have hobs : sasObservations (e :: rest) = (sas, e.sg) :: sasObservations rest := by
        simp [sasObservations, List.filterMap_cons, hn]
      have hloop : finderLoop (e :: rest) devices ignored
          = finderLoop rest (alistInsert devices sas ("/dev/" ++ e.sg))
              (if (alistLookup devices sas).isSome = true then
                 (if sas ∈ ignored then ignored else sas :: ignored)
               else ignored) := by
        simp [finderLoop, hn]
      rw [hloop, hobs]
      have ihh := ih (alistInsert devices sas ("/dev/" ++ e.sg))
        (if (alistLookup devices sas).isSome = true then
           (if sas ∈ ignored then ignored else sas :: ignored)
         else ignored) addr
      by_cases hak : addr = sas
      · subst hak
        have hcnt : ((addr, e.sg) :: sasObservations rest).countP (fun p => p.1 == addr)
            = (sasObservations rest).countP (fun p => p.1 == addr) + 1 := by
          rw [List.countP_cons]
          simp
        have hlk1 : (alistLookup (alistInsert devices addr ("/dev/" ++ e.sg)) addr).isSome
            = true := by
          rw [alistLookup_insert_self]
          rfl
        constructor
        · rw [ihh.1, hcnt]
          by_cases hls : (alistLookup devices addr).isSome = true
          · have hii : (if (alistLookup devices addr).isSome = true then
                (if addr ∈ ignored then ignored else addr :: ignored) else ignored)
                = (if addr ∈ ignored then ignored else addr :: ignored) := if_pos hls
            rw [hii]
            have hmem1 : addr ∈ (if addr ∈ ignored then ignored else addr :: ignored) := by
              by_cases hig : addr ∈ ignored
              · rw [if_pos hig]; exact hig
              · rw [if_neg hig]; exact List.mem_cons_self _ _
            constructor
            · intro _
              exact Or.inr (Or.inl ⟨hls, by omega⟩)
            · intro _
              exact Or.inl hmem1
          · have hls2 : (alistLookup devices addr).isSome = false :=
              Bool.not_eq_true _ |>.mp hls
            have hii : (if (alistLookup devices addr).isSome = true then
                (if addr ∈ ignored then ignored else addr :: ignored) else ignored)
                = ignored := if_neg hls
            rw [hii]
            constructor
            · intro hx
              rcases hx with hx | hx | hx
              · exact Or.inl hx
              · obtain ⟨hx1, hx2⟩ := hx
                exact Or.inr (Or.inr (by omega))
              · exact Or.inr (Or.inr (by omega))
            · intro hx
              rcases hx with hx | hx | hx
              · exact Or.inl hx
              · exact absurd hx.1 (by simp [hls2])
              · exact Or.inr (Or.inl ⟨hlk1, by omega⟩)
        · rw [ihh.2]
          cases hlv : lastValueFor (sasObservations rest) addr with
          | some v => simp [lastValueFor, hlv]
          | none => simp [lastValueFor, hlv, alistLookup_insert_self]
      · have hsa : ¬(sas = addr) := fun h => hak h.symm
        have hcnt : ((sas, e.sg) :: sasObservations rest).countP (fun p => p.1 == addr)
            = (sasObservations rest).countP (fun p => p.1 == addr) := by
          rw [List.countP_cons]
          simp [beq_eq_false_iff_ne.mpr hsa]
        have hig1 : (addr ∈ (if (alistLookup devices sas).isSome = true then
              (if sas ∈ ignored then ignored else sas :: ignored)
            else ignored)) ↔ addr ∈ ignored := by
          by_cases hls : (alistLookup devices sas).isSome = true
          · by_cases hig : sas ∈ ignored
            · simp [hls, hig]
            · simp [hls, hig, List.mem_cons, hak]
          · simp [hls]
        have hlk : alistLookup (alistInsert devices sas ("/dev/" ++ e.sg)) addr
            = alistLookup devices addr :=
          alistLookup_insert_other devices sas addr ("/dev/" ++ e.sg) hak
        have hlast : lastValueFor ((sas, e.sg) :: sasObservations rest) addr
            = lastValueFor (sasObservations rest) addr := by
          cases hlv : lastValueFor (sasObservations rest) addr with
          | some v => simp [lastValueFor, hlv]
          | none => simp [lastValueFor, hlv, hsa]
        constructor
        · rw [ihh.1, hcnt, hig1, hlk]
        · rw [ihh.2, hlast, hlk]

/-- C8: after NewDeviceFinder enumerates the sas_address files, every
normalised SAS address observed on more than one device directory is
absent from the index (FindDevice reports not-found), while an address
observed on exactly one device maps to "/dev/" plus that sgN
component. -/
theorem deviceFinder_resolution :
    (∀ (entries : List SgEntry) (addr : String),
      2 ≤ (sasObservations entries).countP (fun p => p.1 == addr) →
      findDevice (newDeviceFinder entries) addr = ("", false)) ∧
    (∀ (entries : List SgEntry) (addr sg : String),
      (sasObservations entries).filter (fun p => p.1 == addr) = [(addr, sg)] →
      findDevice (newDeviceFinder entries) addr = ("/dev/" ++ sg, true)) := by
  constructor
  · intro entries addr h2
    have hch := finderLoop_characterize entries [] [] addr
    have hmem : addr ∈ (finderLoop entries [] []).2 := by
      rw [hch.1]
      exact Or.inr (Or.inr h2)
    show findDevice ((finderLoop entries [] []).1.filter
      (fun p => !((finderLoop entries [] []).2.contains p.1))) addr = ("", false)
    rw [findDevice, alistLookup_filter_keys, if_pos hmem]
  · intro entries addr sg hfil
    have hcnt1 : (sasObservations entries).countP (fun p => p.1 == addr) = 1 := by
      rw [List.countP_eq_length_filter, hfil]
      rfl
    have hch := finderLoop_characterize entries [] [] addr
    have hmem : addr ∉ (finderLoop entries [] []).2 := by
      rw [hch.1, hcnt1]
      intro hx
      rcases hx with hx | hx | hx
      · simp at hx
      · rcases hx with ⟨hx1, _⟩
        simp [alistLookup] at hx1
      · omega
    have hlast := lastValueFor_of_filter_singleton (sasObservations entries) addr sg hfil
    have hlk : alistLookup (finderLoop entries [] []).1 addr = some ("/dev/" ++ sg) := by
      rw [hch.2, hlast]
    show findDevice ((finderLoop entries [] []).1.filter
      (fun p => !((finderLoop entries [] []).2.contains p.1))) addr
      = ("/dev/" ++ sg, true)
    rw [findDevice, alistLookup_filter_keys, if_neg hmem, hlk]

theorem deviceFinder_resolution_witness :
    findDevice (newDeviceFinder [{ sg := "sg0", sasRead := some " 0xABC " },
      { sg := "sg1", sasRead := some "0xabc" },
      { sg := "sg2", sasRead := some "0xdef" }]) "0xabc" = ("", false) ∧
    findDevice (newDeviceFinder [{ sg := "sg0", sasRead := some " 0xABC " },
      { sg := "sg1", sasRead := some "0xabc" },
      { sg := "sg2", sasRead := some "0xdef" }]) "0xdef" = ("/dev/" ++ "sg2", true) := by
  constructor
  · exact deviceFinder_resolution.1 _ "0xabc" (by decide)
  · exact deviceFinder_resolution.2 _ "0xdef" "sg2" (by decide)

end Sesmon
